import Mathlib

set_option maxHeartbeats 1000000

/-!
Shallow embedding of the transaction-context crate
(`src/transaction-context/src/lib.rs`): the account pool with runtime
borrow states, instruction frames, the push/pop protocol of
`TransactionContext`, and the gated mutations of `BorrowedAccount`.

Machine integers are modelled as `Nat`/`Int` with explicit saturation
or truncation where the source saturates or casts. 32-byte pubkeys are
modelled as `Nat`. `RefCell` borrow counters on account slots are
modelled by an explicit `BorrowState` per slot; the `RefCell`s around
`touched_flags` and `resize_delta` are modelled as plain fields because
no API of the crate lets a caller hold a borrow of them across a call,
so their `GenericError` branches are unreachable.

Functions taking `&mut self` and returning `Result<(), InstructionError>`
are embedded as `State → State × Except InstructionError Unit` so that
partial state transitions on error paths (which the claims are about)
are visible.
-/

/-! ## Machine arithmetic helpers -/

def I64_MIN : Int := -(2 ^ 63)

def I64_MAX : Int := 2 ^ 63 - 1

/-- `i64::saturating_add` -/
def satAddI64 (a b : Int) : Int :=
  if a + b < I64_MIN then I64_MIN else if a + b > I64_MAX then I64_MAX else a + b

/-- `i64::saturating_sub` -/
def satSubI64 (a b : Int) : Int :=
  if a - b < I64_MIN then I64_MIN else if a - b > I64_MAX then I64_MAX else a - b

/-- `usize as i64` (numeric cast, two's complement reinterpretation) -/
def usizeToI64 (n : Nat) : Int :=
  if n % 2 ^ 64 < 2 ^ 63 then ((n % 2 ^ 64 : Nat) : Int) else ((n % 2 ^ 64 : Nat) : Int) - 2 ^ 64

/-- `usize::saturating_add` (operands are below `2^64` in the source) -/
def satAddUsize (a b : Nat) : Nat := min (a + b) (2 ^ 64 - 1)

/-- In-place update of one list element, used for `RefCell` slot writes. -/
def listModify {α : Type} (l : List α) (i : Nat) (f : α → α) : List α :=
  match l, i with
  | [], _ => []
  | x :: xs, 0 => f x :: xs
  | x :: xs, n + 1 => x :: listModify xs n f

def exceptIsOk {ε α : Type} : Except ε α → Bool
  | .ok _ => true
  | .error _ => false

/-! ## Error taxonomy (`solana_instruction::error::InstructionError`, the variants this crate uses) -/

inductive InstructionError where
  | GenericError
  | NotEnoughAccountKeys
  | MissingAccount
  | CallDepth
  | MaxInstructionTraceLengthExceeded
  | AccountBorrowFailed
  | AccountBorrowOutstanding
  | UnbalancedInstruction
  | ReadonlyLamportChange
  | ExternalAccountLamportSpend
  | ReadonlyDataModified
  | ExternalAccountDataModified
  | ModifiedProgramId
  | ExecutableLamportChange
  | ExecutableDataModified
  | ExecutableModified
  | ExecutableAccountNotRentExempt
  | InvalidRealloc
  | MaxAccountsDataAllocationsExceeded
  | AccountDataSizeChanged
  | AccountDataTooSmall
  | InvalidAccountData
  | ArithmeticOverflow
  | InvalidAccountOwner
  deriving DecidableEq

/-! ## Constants (lib.rs lines 23, 32, 45) -/

def MAX_PERMITTED_DATA_LENGTH : Nat := 10 * 1024 * 1024

def MAX_PERMITTED_ACCOUNTS_DATA_ALLOCATIONS_PER_TRANSACTION : Int :=
  (MAX_PERMITTED_DATA_LENGTH : Int) * 2

def MAX_PERMITTED_DATA_INCREASE : Nat := 1024 * 10

/-- Well-known key of the instructions sysvar account (`solana_instructions_sysvar::id()`);
an arbitrary distinguished pubkey value in this model. -/
def instructionsSysvarId : Nat := 1900001

/-- `solana_sdk_ids::sysvar::id()`, the sysvar registry owner key;
an arbitrary distinguished pubkey value in this model, distinct from `instructionsSysvarId`. -/
def sysvarRegistryId : Nat := 1900002

/-! ## Account data model -/

/-- `solana_account::AccountSharedData`: lamports, data bytes, owner key,
executable flag, rent epoch, and the copy-on-write `shared` marker. -/
structure AccountSharedData where
  lamports : Nat
  data : List Nat
  owner : Nat
  executable : Bool
  rent_epoch : Nat
  shared : Bool
  deriving DecidableEq

instance : Inhabited AccountSharedData := ⟨⟨0, [], 0, false, 0, false⟩⟩

/-- Runtime borrow counter of one `RefCell<AccountSharedData>` slot. -/
inductive BorrowState where
  | available
  | sharedBorrows (n : Nat)
  | exclusiveBorrow
  deriving DecidableEq

/-- One pool slot: the account value together with its runtime borrow state. -/
structure AccountSlot where
  account : AccountSharedData
  borrow : BorrowState
  deriving DecidableEq

instance : Inhabited AccountSlot := ⟨⟨default, .available⟩⟩

/-- `try_borrow` (shared) on a slot succeeds unless an exclusive borrow is outstanding. -/
def AccountSlot.canBorrowShared (s : AccountSlot) : Bool :=
  s.borrow ≠ BorrowState.exclusiveBorrow

/-- `try_borrow_mut` (exclusive) on a slot succeeds only when no borrow is outstanding. -/
def AccountSlot.canBorrowExclusive (s : AccountSlot) : Bool :=
  s.borrow = BorrowState.available

/-- `InstructionAccount` (lib.rs line 60); `is_signer`/`is_writable` are
`u8` in the source with boolean accessors, modelled as `Bool`. -/
structure InstructionAccount where
  index_in_transaction : Nat
  index_in_callee : Nat
  is_signer : Bool
  is_writable : Bool
  deriving DecidableEq

/-- `InstructionContext` (lib.rs line 620). -/
structure InstructionContext where
  nesting_level : Nat
  instruction_accounts_lamport_sum : Nat
  program_accounts : List Nat
  instruction_accounts : List InstructionAccount
  instruction_data : List Nat
  deriving DecidableEq

instance : Inhabited InstructionContext := ⟨⟨0, 0, [], [], []⟩⟩

/-- `TransactionAccounts` (lib.rs line 109). -/
structure TransactionAccounts where
  accounts : List AccountSlot
  touched_flags : List Bool
  resize_delta : Int

structure TransactionReturnData where
  program_id : Nat
  data : List Nat

instance : Inhabited TransactionReturnData := ⟨⟨0, []⟩⟩

/-- `TransactionContext` (lib.rs line 194); the rent struct is modelled by
its only consumed capability, the exemption predicate `is_exempt(lamports, data_len)`. -/
structure TransactionContext where
  account_keys : List Nat
  accounts : TransactionAccounts
  instruction_stack_capacity : Nat
  instruction_trace_capacity : Nat
  instruction_stack : List Nat
  instruction_trace : List InstructionContext
  top_level_instruction_index : Nat
  return_data : TransactionReturnData
  remove_accounts_executable_flag_checks : Bool
  rent_is_exempt : Nat → Nat → Bool

/-- `TransactionContext::new` (lib.rs line 212). -/
def TransactionContext.new (transaction_accounts : List (Nat × AccountSharedData))
    (rent : Nat → Nat → Bool) (stack_capacity trace_capacity : Nat) : TransactionContext :=
  { account_keys := transaction_accounts.map (·.1)
    accounts :=
      { accounts := transaction_accounts.map (fun p => { account := p.2, borrow := .available })
        touched_flags := transaction_accounts.map (fun _ => false)
        resize_delta := 0 }
    instruction_stack_capacity := stack_capacity
    instruction_trace_capacity := trace_capacity
    instruction_stack := []
    instruction_trace := [default]
    top_level_instruction_index := 0
    return_data := default
    remove_accounts_executable_flag_checks := true
    rent_is_exempt := rent }

/-! ## TransactionAccounts operations (lib.rs lines 144-176) -/

/-- `TransactionAccounts::update_accounts_resize_delta`: saturating i64 update.
The `try_borrow_mut` on the `resize_delta` cell always succeeds (see module comment). -/
def TransactionAccounts.update_accounts_resize_delta (self : TransactionAccounts)
    (old_len new_len : Nat) : TransactionAccounts :=
  { self with
    resize_delta := satAddI64 self.resize_delta (satSubI64 (usizeToI64 new_len) (usizeToI64 old_len)) }

/-- `TransactionAccounts::can_data_be_resized` (lib.rs line 158). -/
def TransactionAccounts.can_data_be_resized (self : TransactionAccounts)
    (old_len new_len : Nat) : Except InstructionError Unit :=
  if new_len > MAX_PERMITTED_DATA_LENGTH then .error .InvalidRealloc
  else if satAddI64 self.resize_delta (satSubI64 (usizeToI64 new_len) (usizeToI64 old_len)) >
      MAX_PERMITTED_ACCOUNTS_DATA_ALLOCATIONS_PER_TRANSACTION then
    .error .MaxAccountsDataAllocationsExceeded
  else .ok ()

/-! ## InstructionContext queries (lib.rs lines 645-761) -/

/-- `get_number_of_instruction_accounts`: `len() as u16`. -/
def InstructionContext.get_number_of_instruction_accounts (self : InstructionContext) : Nat :=
  self.instruction_accounts.length % 65536

/-- `get_number_of_program_accounts`: `len() as u16`. -/
def InstructionContext.get_number_of_program_accounts (self : InstructionContext) : Nat :=
  self.program_accounts.length % 65536

/-- `is_instruction_account_duplicate` (lib.rs line 747). -/
def InstructionContext.is_instruction_account_duplicate (self : InstructionContext)
    (instruction_account_index : Nat) : Except InstructionError (Option Nat) :=
  match self.instruction_accounts[instruction_account_index]? with
  | none => .error .NotEnoughAccountKeys
  | some a =>
    .ok (if a.index_in_callee = instruction_account_index then none else some a.index_in_callee)

/-- `get_index_of_instruction_account_in_transaction` (lib.rs line 722). -/
def InstructionContext.get_index_of_instruction_account_in_transaction (self : InstructionContext)
    (instruction_account_index : Nat) : Except InstructionError Nat :=
  match self.instruction_accounts[instruction_account_index]? with
  | none => .error .NotEnoughAccountKeys
  | some a => .ok a.index_in_transaction

/-- `get_index_of_program_account_in_transaction` (lib.rs line 711). -/
def InstructionContext.get_index_of_program_account_in_transaction (self : InstructionContext)
    (program_account_index : Nat) : Except InstructionError Nat :=
  match self.program_accounts[program_account_index]? with
  | none => .error .NotEnoughAccountKeys
  | some t => .ok t

/-- `get_key_of_account_at_index` (lib.rs line 267). -/
def TransactionContext.get_key_of_account_at_index (self : TransactionContext)
    (index_in_transaction : Nat) : Except InstructionError Nat :=
  match self.account_keys[index_in_transaction]? with
  | none => .error .NotEnoughAccountKeys
  | some k => .ok k

/-- `get_last_program_key` (lib.rs line 764). -/
def InstructionContext.get_last_program_key (self : InstructionContext)
    (ctx : TransactionContext) : Except InstructionError Nat :=
  match self.get_index_of_program_account_in_transaction
      (self.get_number_of_program_accounts - 1) with
  | .error e => .error e
  | .ok index_in_transaction => ctx.get_key_of_account_at_index index_in_transaction

/-! ## TransactionContext queries and the lamport sum (lib.rs lines 291-361, 491-517) -/

/-- Helper for `find_index_of_account`: `iter().position(..)`. -/
def findIndexOfKey : List Nat → Nat → Option Nat
  | [], _ => none
  | k :: ks, key => if k = key then some 0 else (findIndexOfKey ks key).map (· + 1)

/-- `TransactionContext::find_index_of_account` (lib.rs line 291):
first occurrence, `position as IndexOfAccount` (u16 cast). -/
def TransactionContext.find_index_of_account (self : TransactionContext) (pubkey : Nat) :
    Option Nat :=
  (findIndexOfKey self.account_keys pubkey).map (· % 65536)

/-- `get_instruction_trace_length`: `len().saturating_sub(1)` (lib.rs line 315). -/
def TransactionContext.get_instruction_trace_length (self : TransactionContext) : Nat :=
  self.instruction_trace.length - 1

/-- `get_instruction_context_at_nesting_level` (lib.rs line 330). -/
def TransactionContext.get_instruction_context_at_nesting_level (self : TransactionContext)
    (nesting_level : Nat) : Except InstructionError InstructionContext :=
  match self.instruction_stack[nesting_level]? with
  | none => .error .CallDepth
  | some index_in_trace =>
    match self.instruction_trace[index_in_trace]? with
    | none => .error .CallDepth
    | some ic => .ok ic

/-- `get_current_instruction_context` (lib.rs line 355): `stack_height.checked_sub(1)`. -/
def TransactionContext.get_current_instruction_context (self : TransactionContext) :
    Except InstructionError InstructionContext :=
  if self.instruction_stack.length = 0 then .error .CallDepth
  else self.get_instruction_context_at_nesting_level (self.instruction_stack.length - 1)

/-- Loop body of `instruction_accounts_lamport_sum` (lib.rs lines 495-515), recursing over
the list of instruction-account indices with the `u128` accumulator. -/
def lamportSumAux (ctx : TransactionContext) (ic : InstructionContext) :
    List Nat → Nat → Except InstructionError Nat
  | [], acc => .ok acc
  | i :: rest, acc =>
    match ic.is_instruction_account_duplicate i with
    | .error e => .error e
    | .ok (some _) => lamportSumAux ctx ic rest acc
    | .ok none =>
      match ic.get_index_of_instruction_account_in_transaction i with
      | .error e => .error e
      | .ok index_in_transaction =>
        match ctx.accounts.accounts[index_in_transaction]? with
        | none => .error .NotEnoughAccountKeys
        | some slot =>
          if slot.canBorrowShared then
            if slot.account.lamports + acc < 2 ^ 128 then
              lamportSumAux ctx ic rest (slot.account.lamports + acc)
            else .error .ArithmeticOverflow
          else .error .AccountBorrowOutstanding

/-- `TransactionContext::instruction_accounts_lamport_sum` (lib.rs line 491). -/
def TransactionContext.instruction_accounts_lamport_sum (self : TransactionContext)
    (instruction_context : InstructionContext) : Except InstructionError Nat :=
  lamportSumAux self instruction_context
    (List.range instruction_context.get_number_of_instruction_accounts) 0

/-! ## push (lib.rs lines 385-436) -/

/-- Rewrites the pre-reserved tail frame of the trace (`get_next_instruction_context_mut`). -/
def updateLast (l : List InstructionContext) (f : InstructionContext → InstructionContext) :
    List InstructionContext :=
  match l with
  | [] => []
  | [x] => [f x]
  | x :: xs => x :: updateLast xs f

/-- The caller-balance check of `push` (lib.rs lines 393-404). -/
def TransactionContext.pushParentCheck (ctx : TransactionContext) :
    Except InstructionError Unit :=
  if ctx.instruction_stack.isEmpty then .ok ()
  else
    match ctx.get_current_instruction_context with
    | .error e => .error e
    | .ok cur =>
      match ctx.instruction_accounts_lamport_sum cur with
      | .error e => .error e
      | .ok now =>
        if cur.instruction_accounts_lamport_sum ≠ now then .error .UnbalancedInstruction
        else .ok ()

/-- Modelled from the spec: `solana_instructions_sysvar::store_current_index_checked` is
not part of this repository (only its caller is); per the spec it writes the current
top-level instruction index as a little-endian u16 into the sysvar data's designated
trailing slot (its last two bytes) and returns `AccountDataTooSmall` when the data is
too short to hold it. -/
def store_current_index_checked (data : List Nat) (idx : Nat) :
    Except InstructionError (List Nat) :=
  if data.length < 2 then .error .AccountDataTooSmall
  else .ok (data.take (data.length - 2) ++ [idx % 256, idx / 256 % 256])

/-- The instructions-sysvar maintenance tail of `push` (lib.rs lines 420-434). -/
def TransactionContext.pushSysvarStep (ctx : TransactionContext) :
    TransactionContext × Except InstructionError Unit :=
  match ctx.find_index_of_account instructionsSysvarId with
  | none => (ctx, .ok ())
  | some index_in_transaction =>
    match ctx.accounts.accounts[index_in_transaction]? with
    | none => (ctx, .error .NotEnoughAccountKeys)
    | some slot =>
      if slot.canBorrowExclusive then
        if slot.account.owner ≠ sysvarRegistryId then (ctx, .error .InvalidAccountOwner)
        else
          match store_current_index_checked slot.account.data
              (ctx.top_level_instruction_index % 65536) with
          | .error e => (ctx, .error e)
          | .ok newData =>
            ({ ctx with
                accounts :=
                  { ctx.accounts with
                    accounts := listModify ctx.accounts.accounts index_in_transaction
                      (fun s => { s with account := { s.account with data := newData, shared := false } }) } },
              .ok ())
      else (ctx, .error .AccountBorrowFailed)

/-- `TransactionContext::push` (lib.rs line 385). Returns the resulting state together
with the result, because the source mutates `&mut self` before some of its early
returns. -/
def TransactionContext.push (ctx : TransactionContext) :
    TransactionContext × Except InstructionError Unit :=
  let nesting_level := ctx.instruction_stack.length
  match ctx.instruction_trace.getLast? with
  | none => (ctx, .error .CallDepth)
  | some caller =>
    match ctx.instruction_accounts_lamport_sum caller with
    | .error e => (ctx, .error e)
    | .ok calleeSum =>
      match ctx.pushParentCheck with
      | .error e => (ctx, .error e)
      | .ok _ =>
        let ctx1 :=
          { ctx with
            instruction_trace := updateLast ctx.instruction_trace
              (fun ic =>
                { ic with
                  nesting_level := nesting_level
                  instruction_accounts_lamport_sum := calleeSum }) }
        let index_in_trace := ctx1.get_instruction_trace_length
        if index_in_trace ≥ ctx1.instruction_trace_capacity then
          (ctx1, .error .MaxInstructionTraceLengthExceeded)
        else
          let ctx2 := { ctx1 with instruction_trace := ctx1.instruction_trace ++ [default] }
          if nesting_level ≥ ctx2.instruction_stack_capacity then (ctx2, .error .CallDepth)
          else
            let ctx3 := { ctx2 with instruction_stack := ctx2.instruction_stack ++ [index_in_trace] }
            ctx3.pushSysvarStep

/-! ## pop (lib.rs lines 440-472) -/

/-- The dummy exclusive borrows of the current frame's program accounts
(lib.rs lines 449-455). -/
def checkProgramBorrows (ctx : TransactionContext) : List Nat → Except InstructionError Unit
  | [] => .ok ()
  | index_in_transaction :: rest =>
    match ctx.accounts.accounts[index_in_transaction]? with
    | none => .error .NotEnoughAccountKeys
    | some slot =>
      if slot.canBorrowExclusive then checkProgramBorrows ctx rest
      else .error .AccountBorrowOutstanding

/-- The `detected_an_unbalanced_instruction` computation of `pop` (lib.rs lines 445-461). -/
def TransactionContext.popDetect (ctx : TransactionContext) : Except InstructionError Bool :=
  match ctx.get_current_instruction_context with
  | .error e => .error e
  | .ok ic =>
    match checkProgramBorrows ctx ic.program_accounts with
    | .error e => .error e
    | .ok _ =>
      match ctx.instruction_accounts_lamport_sum ic with
      | .error e => .error e
      | .ok s => .ok (decide (ic.instruction_accounts_lamport_sum ≠ s))

/-- `TransactionContext::pop` (lib.rs line 440). -/
def TransactionContext.pop (ctx : TransactionContext) :
    TransactionContext × Except InstructionError Unit :=
  if ctx.instruction_stack.isEmpty then (ctx, .error .CallDepth)
  else
    let detected := ctx.popDetect
    let stack2 := ctx.instruction_stack.dropLast
    let ctx2 :=
      { ctx with
        instruction_stack := stack2
        top_level_instruction_index :=
          if stack2.isEmpty then satAddUsize ctx.top_level_instruction_index 1
          else ctx.top_level_instruction_index }
    match detected with
    | .error e => (ctx2, .error e)
    | .ok true => (ctx2, .error .UnbalancedInstruction)
    | .ok false => (ctx2, .ok ())

/-! ## BorrowedAccount (lib.rs lines 884-1273)

A `BorrowedAccount` in the source holds a `RefMut` into one pool slot plus
references to the owning frame and context. Here it carries the context by
value and reads/writes the slot through `index_in_transaction`; while the
exclusive borrow is held nobody else can observe the slot, so writing through
to the pool immediately is observationally equal to the `RefMut` write-through.
-/

structure BorrowedAccount where
  transaction_context : TransactionContext
  instruction_context : InstructionContext
  index_in_transaction : Nat
  index_in_instruction_accounts : Option Nat

/-- The pool slot this borrow points at. `try_borrow_account` (lib.rs line 776)
only constructs in-range handles, so the `default` fallback is never hit from the API. -/
def BorrowedAccount.slot (self : BorrowedAccount) : AccountSlot :=
  (self.transaction_context.accounts.accounts[self.index_in_transaction]?).getD default

def BorrowedAccount.get_data (self : BorrowedAccount) : List Nat :=
  self.slot.account.data

def BorrowedAccount.get_lamports (self : BorrowedAccount) : Nat :=
  self.slot.account.lamports

def BorrowedAccount.get_owner (self : BorrowedAccount) : Nat :=
  self.slot.account.owner

/-- `is_writable` (lib.rs line 1210): the recorded flag of the instruction account,
`false` for program-account borrows and on lookup failure (`unwrap_or_default`). -/
def BorrowedAccount.is_writable (self : BorrowedAccount) : Bool :=
  match self.index_in_instruction_accounts with
  | some i =>
    match self.instruction_context.instruction_accounts[i]? with
    | some a => a.is_writable
    | none => false
  | none => false

/-- `is_owned_by_current_program` (lib.rs line 1221). -/
def BorrowedAccount.is_owned_by_current_program (self : BorrowedAccount) : Bool :=
  match self.instruction_context.get_last_program_key self.transaction_context with
  | .ok key => key = self.get_owner
  | .error _ => false

/-- `is_executable_internal` (lib.rs line 1151). -/
def BorrowedAccount.is_executable_internal (self : BorrowedAccount) : Bool :=
  !self.transaction_context.remove_accounts_executable_flag_checks && self.slot.account.executable

/-- Whether `self.touch()` (lib.rs line 1261, via `TransactionAccounts::touch`)
succeeds: the index must be in range of `touched_flags`. -/
def BorrowedAccount.touchOk (self : BorrowedAccount) : Bool :=
  self.index_in_transaction < self.transaction_context.accounts.touched_flags.length

/-- State effect of a successful `touch`. -/
def BorrowedAccount.touchState (self : BorrowedAccount) : BorrowedAccount :=
  { self with
    transaction_context :=
      { self.transaction_context with
        accounts :=
          { self.transaction_context.accounts with
            touched_flags :=
              listModify self.transaction_context.accounts.touched_flags
                self.index_in_transaction (fun _ => true) } } }

/-- State effect of `update_accounts_resize_delta` called from a `BorrowedAccount`
(lib.rs line 1268): `old_len` is the current data length. -/
def BorrowedAccount.updateResizeDeltaState (self : BorrowedAccount) (new_len : Nat) :
    BorrowedAccount :=
  { self with
    transaction_context :=
      { self.transaction_context with
        accounts :=
          self.transaction_context.accounts.update_accounts_resize_delta
            self.get_data.length new_len } }

/-- Writes the slot's account through the held borrow. -/
def BorrowedAccount.mapAccount (self : BorrowedAccount)
    (f : AccountSharedData → AccountSharedData) : BorrowedAccount :=
  { self with
    transaction_context :=
      { self.transaction_context with
        accounts :=
          { self.transaction_context.accounts with
            accounts :=
              listModify self.transaction_context.accounts.accounts
                self.index_in_transaction (fun s => { s with account := f s.account }) } } }

/-- `AccountSharedData::resize(new_len, 0)`: zero-fill extend or truncate;
writing unshares the CoW buffer. -/
def accountResize (a : AccountSharedData) (new_len : Nat) : AccountSharedData :=
  { a with
    data :=
      if new_len ≤ a.data.length then a.data.take new_len
      else a.data ++ List.replicate (new_len - a.data.length) 0
    shared := false }

/-- `can_data_be_changed` (lib.rs line 1230). -/
def BorrowedAccount.can_data_be_changed (self : BorrowedAccount) :
    Except InstructionError Unit :=
  if self.is_executable_internal then .error .ExecutableDataModified
  else if !self.is_writable then .error .ReadonlyDataModified
  else if !self.is_owned_by_current_program then .error .ExternalAccountDataModified
  else .ok ()

/-- `BorrowedAccount::can_data_be_resized` (lib.rs line 1248). -/
def BorrowedAccount.can_data_be_resized (self : BorrowedAccount) (new_len : Nat) :
    Except InstructionError Unit :=
  if new_len ≠ self.get_data.length ∧ !self.is_owned_by_current_program then
    .error .AccountDataSizeChanged
  else
    match self.transaction_context.accounts.can_data_be_resized self.get_data.length new_len with
    | .error e => .error e
    | .ok _ => self.can_data_be_changed

/-- `set_lamports` (lib.rs line 955). -/
def BorrowedAccount.set_lamports (self : BorrowedAccount) (lamports : Nat) :
    BorrowedAccount × Except InstructionError Unit :=
  if !self.is_owned_by_current_program ∧ lamports < self.get_lamports then
    (self, .error .ExternalAccountLamportSpend)
  else if !self.is_writable then (self, .error .ReadonlyLamportChange)
  else if self.is_executable_internal then (self, .error .ExecutableLamportChange)
  else if self.get_lamports = lamports then (self, .ok ())
  else if self.touchOk then
    (self.touchState.mapAccount (fun a => { a with lamports := lamports }), .ok ())
  else (self, .error .NotEnoughAccountKeys)

/-- `set_executable` (lib.rs line 1160). -/
def BorrowedAccount.set_executable (self : BorrowedAccount) (is_executable : Bool) :
    BorrowedAccount × Except InstructionError Unit :=
  if !self.transaction_context.rent_is_exempt self.get_lamports self.get_data.length then
    (self, .error .ExecutableAccountNotRentExempt)
  else if !self.is_owned_by_current_program then (self, .error .ExecutableModified)
  else if !self.is_writable then (self, .error .ExecutableModified)
  else if self.is_executable_internal ∧ !is_executable then (self, .error .ExecutableModified)
  else if self.slot.account.executable = is_executable then (self, .ok ())
  else if self.touchOk then
    (self.touchState.mapAccount (fun a => { a with executable := is_executable }), .ok ())
  else (self, .error .NotEnoughAccountKeys)

/-- `set_data_length` (lib.rs line 1052). -/
def BorrowedAccount.set_data_length (self : BorrowedAccount) (new_length : Nat) :
    BorrowedAccount × Except InstructionError Unit :=
  match self.can_data_be_resized new_length with
  | .error e => (self, .error e)
  | .ok _ =>
    if self.get_data.length = new_length then (self, .ok ())
    else if self.touchOk then
      ((self.touchState.updateResizeDeltaState new_length).mapAccount
          (fun a => accountResize a new_length),
        .ok ())
    else (self, .error .NotEnoughAccountKeys)

/-- `extend_from_slice` (lib.rs line 1066). `make_data_mut` (lib.rs line 1097) only
reserves capacity and unshares the CoW buffer; appending unshares as well. -/
def BorrowedAccount.extend_from_slice (self : BorrowedAccount) (data : List Nat) :
    BorrowedAccount × Except InstructionError Unit :=
  let new_len := satAddUsize self.get_data.length data.length
  match self.can_data_be_resized new_len with
  | .error e => (self, .error e)
  | .ok _ =>
    if data.isEmpty then (self, .ok ())
    else if self.touchOk then
      ((self.touchState.updateResizeDeltaState new_len).mapAccount
          (fun a => { a with data := a.data ++ data, shared := false }),
        .ok ())
    else (self, .error .NotEnoughAccountKeys)

/-! ## Spec-side formulations used in theorem statements -/

/-- Whether transaction index `t` names an existing pool slot. -/
def slotInRange (ctx : TransactionContext) (t : Nat) : Bool :=
  t < ctx.accounts.accounts.length

/-- Whether the slot at transaction index `t` can be borrowed shared. -/
def slotBorrowableShared (ctx : TransactionContext) (t : Nat) : Bool :=
  match ctx.accounts.accounts[t]? with
  | some s => s.canBorrowShared
  | none => false

/-- The lamports of the slot at transaction index `t` (0 when out of range). -/
def slotLamports (ctx : TransactionContext) (t : Nat) : Nat :=
  ((ctx.accounts.accounts[t]?).map (·.account.lamports)).getD 0

/-- Whether instruction account `i` is a first occurrence, i.e.
`is_instruction_account_duplicate` answers `None` for it. -/
def isFirstOccurrence (ic : InstructionContext) (i : Nat) : Bool :=
  match ic.instruction_accounts[i]? with
  | some a => a.index_in_callee = i
  | none => false

/-- The transaction index recorded for instruction account `i` (0 when out of range). -/
def txIndexOf (ic : InstructionContext) (i : Nat) : Nat :=
  ((ic.instruction_accounts[i]?).map (·.index_in_transaction)).getD 0

/-- Spec-side sum: lamports of the first-occurrence instruction accounts among
the given index list, duplicates contributing nothing. -/
def sumOverFirstOcc (ctx : TransactionContext) (ic : InstructionContext) : List Nat → Nat
  | [] => 0
  | i :: rest =>
    (if isFirstOccurrence ic i then slotLamports ctx (txIndexOf ic i) else 0) +
      sumOverFirstOcc ctx ic rest

/-- Spec-side total over all instruction accounts of a frame. -/
def totalFirstOccLamports (ctx : TransactionContext) (ic : InstructionContext) : Nat :=
  sumOverFirstOcc ctx ic (List.range ic.instruction_accounts.length)

/-! ## Sequences of `set_data_length` operations (for the resize-delta identity) -/

/-- One `BorrowedAccount::set_data_length` call: the frame it runs under, the borrowed
slot, the optional instruction-account position, and the requested length. -/
structure ResizeOp where
  ic : InstructionContext
  index_in_transaction : Nat
  index_in_instruction_accounts : Option Nat
  new_length : Nat

/-- Borrow the slot, run `set_data_length`, release the borrow. Acquiring and
releasing the exclusive borrow leaves the borrow state unchanged and
`set_data_length` never re-borrows the slot, so only the data effect remains. -/
def applyResizeOp (ctx : TransactionContext) (op : ResizeOp) :
    TransactionContext × Except InstructionError Unit :=
  let ba : BorrowedAccount :=
    ⟨ctx, op.ic, op.index_in_transaction, op.index_in_instruction_accounts⟩
  let r := ba.set_data_length op.new_length
  (r.1.transaction_context, r.2)

/-- Runs a sequence of resize operations; the boolean records whether every
operation in the sequence succeeded. -/
def applyResizeOps (ctx : TransactionContext) : List ResizeOp → TransactionContext × Bool
  | [] => (ctx, true)
  | op :: rest =>
    let r := applyResizeOp ctx op
    let rr := applyResizeOps r.1 rest
    (rr.1, exceptIsOk r.2 && rr.2)

/-- Spec-side signed sum of (current data length − initial data length) over all slots. -/
def lenDiffSum : List AccountSlot → List Nat → Int
  | s :: ss, l :: ls => ((s.account.data.length : Int) - (l : Int)) + lenDiffSum ss ls
  | _, _ => 0

/-- The inductive invariant for the resize-delta identity: the recorded delta equals
the spec-side sum, the shapes line up, and all data lengths are within the per-account
maximum (which successful resizes preserve). -/
def deltaInvariant (inits : List Nat) (ctx : TransactionContext) : Prop :=
  ctx.accounts.resize_delta = lenDiffSum ctx.accounts.accounts inits ∧
  ctx.accounts.accounts.length = inits.length ∧
  ctx.accounts.touched_flags.length = inits.length ∧
  (∀ s ∈ ctx.accounts.accounts, s.account.data.length ≤ MAX_PERMITTED_DATA_LENGTH) ∧
  (∀ l ∈ inits, l ≤ MAX_PERMITTED_DATA_LENGTH)

/-! ## Concrete fixtures -/

/-- A frame with no program accounts and no instruction accounts. -/
def icEmptyFrame : InstructionContext :=
  { nesting_level := 0, instruction_accounts_lamport_sum := 0, program_accounts := []
    instruction_accounts := [], instruction_data := [] }

/-- A context mid-transaction: one frame on the stack, nothing borrowed. -/
def ctxC1 : TransactionContext :=
  { account_keys := []
    accounts := ⟨[], [], 0⟩
    instruction_stack_capacity := 2
    instruction_trace_capacity := 2
    instruction_stack := [0]
    instruction_trace := [icEmptyFrame, default]
    top_level_instruction_index := 0
    return_data := default
    remove_accounts_executable_flag_checks := true
    rent_is_exempt := fun _ _ => true }

/-- A frame whose only program account is transaction account 0. -/
def icProgFrame : InstructionContext :=
  { nesting_level := 0, instruction_accounts_lamport_sum := 0, program_accounts := [0]
    instruction_accounts := [], instruction_data := [] }

/-- A context whose current frame's program account is still exclusively borrowed. -/
def ctxC9 : TransactionContext :=
  { account_keys := [11]
    accounts := ⟨[{ account := default, borrow := .exclusiveBorrow }], [false], 0⟩
    instruction_stack_capacity := 2
    instruction_trace_capacity := 2
    instruction_stack := [0]
    instruction_trace := [icProgFrame, default]
    top_level_instruction_index := 0
    return_data := default
    remove_accounts_executable_flag_checks := true
    rent_is_exempt := fun _ _ => true }

/-- A fresh context whose stack capacity is already reached (capacity 0). -/
def ctxC10 : TransactionContext :=
  { account_keys := []
    accounts := ⟨[], [], 0⟩
    instruction_stack_capacity := 0
    instruction_trace_capacity := 1
    instruction_stack := []
    instruction_trace := [default]
    top_level_instruction_index := 0
    return_data := default
    remove_accounts_executable_flag_checks := true
    rent_is_exempt := fun _ _ => true }

/-- Scenario 1 of the spec: the instructions-sysvar account is present but owned
by key 900 instead of the sysvar registry; the configured frame is empty. -/
def ctxC3 : TransactionContext :=
  { account_keys := [900, instructionsSysvarId]
    accounts :=
      ⟨[{ account := default, borrow := .available },
        { account := { lamports := 5, data := [0, 0], owner := 900, executable := false,
                       rent_epoch := 0, shared := false }, borrow := .available }],
        [false, false], 0⟩
    instruction_stack_capacity := 2
    instruction_trace_capacity := 2
    instruction_stack := []
    instruction_trace := [default]
    top_level_instruction_index := 0
    return_data := default
    remove_accounts_executable_flag_checks := true
    rent_is_exempt := fun _ _ => true }

/-- Two accounts with 5 and 7 lamports. -/
def ctxC2 : TransactionContext :=
  { account_keys := [21, 22]
    accounts :=
      ⟨[{ account := { lamports := 5, data := [], owner := 0, executable := false,
                       rent_epoch := 0, shared := false }, borrow := .available },
        { account := { lamports := 7, data := [], owner := 0, executable := false,
                       rent_epoch := 0, shared := false }, borrow := .available }],
        [false, false], 0⟩
    instruction_stack_capacity := 2
    instruction_trace_capacity := 2
    instruction_stack := []
    instruction_trace := [default]
    top_level_instruction_index := 0
    return_data := default
    remove_accounts_executable_flag_checks := true
    rent_is_exempt := fun _ _ => true }

/-- A frame listing account 0 twice (the second entry a duplicate marker pointing
at position 0) and account 1 once. -/
def icC2 : InstructionContext :=
  { nesting_level := 0, instruction_accounts_lamport_sum := 0, program_accounts := []
    instruction_accounts :=
      [{ index_in_transaction := 0, index_in_callee := 0, is_signer := false, is_writable := true },
        { index_in_transaction := 1, index_in_callee := 1, is_signer := false, is_writable := true },
        { index_in_transaction := 0, index_in_callee := 0, is_signer := false, is_writable := true }]
    instruction_data := [] }

/-- A frame whose program is transaction account 0 and whose single instruction
account is transaction account 1, writable. -/
def icOwned : InstructionContext :=
  { nesting_level := 0, instruction_accounts_lamport_sum := 0, program_accounts := [0]
    instruction_accounts :=
      [{ index_in_transaction := 1, index_in_callee := 0, is_signer := false, is_writable := true }]
    instruction_data := [] }

/-- Like `icOwned` but the instruction account is not writable. -/
def icReadonly : InstructionContext :=
  { nesting_level := 0, instruction_accounts_lamport_sum := 0, program_accounts := [0]
    instruction_accounts :=
      [{ index_in_transaction := 1, index_in_callee := 0, is_signer := false,
         is_writable := false }]
    instruction_data := [] }

/-- Program key 10 at index 0; account 1 owned by the program, 100 lamports, empty data. -/
def ctxOwned : TransactionContext :=
  { account_keys := [10, 20]
    accounts :=
      ⟨[{ account := default, borrow := .available },
        { account := { lamports := 100, data := [], owner := 10, executable := false,
                       rent_epoch := 0, shared := false }, borrow := .available }],
        [false, false], 0⟩
    instruction_stack_capacity := 2
    instruction_trace_capacity := 2
    instruction_stack := [0]
    instruction_trace := [icOwned, default]
    top_level_instruction_index := 0
    return_data := default
    remove_accounts_executable_flag_checks := true
    rent_is_exempt := fun _ _ => true }

/-- A borrow of account 1 under `icOwned`: owned by the current program and writable. -/
def baOwned : BorrowedAccount := ⟨ctxOwned, icOwned, 1, some 0⟩

/-- Like `ctxOwned` but account 1 has its executable flag set; the
executable-flag-check removal feature is at its default (enabled). -/
def ctxC7 : TransactionContext :=
  { ctxOwned with
    accounts :=
      ⟨[{ account := default, borrow := .available },
        { account := { lamports := 100, data := [], owner := 10, executable := true,
                       rent_epoch := 0, shared := false }, borrow := .available }],
        [false, false], 0⟩ }

/-- A borrow of the executable account 1 under the default feature flag. -/
def baC7 : BorrowedAccount := ⟨ctxC7, icOwned, 1, some 0⟩

/-- Like `baC7` but with the executable-flag checks kept (legacy behavior). -/
def baC7legacy : BorrowedAccount :=
  ⟨{ ctxC7 with remove_accounts_executable_flag_checks := false }, icOwned, 1, some 0⟩

/-- A borrow of account 1 under `icReadonly`: not writable. -/
def baC8 : BorrowedAccount := ⟨ctxOwned, icReadonly, 1, some 0⟩

/-- Initial account set for the resize-delta scenario: a program account and an
account owned by it. -/
def txsC5 : List (Nat × AccountSharedData) :=
  [(10, default),
    (20, { lamports := 100, data := [], owner := 10, executable := false, rent_epoch := 0,
           shared := false })]

/-- One successful resize of account 1 (under `icOwned`) to length 5. -/
def opsC5 : List ResizeOp := [⟨icOwned, 1, some 0, 5⟩]

/-! ## Supporting lemmas -/

theorem length_updateLast (l : List InstructionContext) (f : InstructionContext → InstructionContext) :
    (updateLast l f).length = l.length := by
  induction l with
  | nil => rfl
  | cons x xs ih =>
    cases xs with
    | nil => rfl
    | cons y ys => simpa [updateLast] using ih

/-! ## Claim theorems -/

/-- C1: for every `TransactionContext` with a non-empty instruction stack whose
pop-time consistency computation runs to completion (current frame retrievable,
program accounts released, lamport sum recomputable to `s`), `pop` removes the
top entry of the instruction stack even when `s` differs from the recorded
snapshot; if the stack is empty after the pop, `top_level_instruction_index` is
incremented by 1 (saturating); and `pop` returns `UnbalancedInstruction` exactly
when the recomputed sum differed from the snapshot, else ok. -/
theorem pop_always_pops_and_reports_imbalance (ctx : TransactionContext)
    (ic : InstructionContext) (s : Nat)
    (hne : ctx.instruction_stack ≠ [])
    (hcur : ctx.get_current_instruction_context = .ok ic)
    (hprog : checkProgramBorrows ctx ic.program_accounts = .ok ())
    (hsum : ctx.instruction_accounts_lamport_sum ic = .ok s) :
    ctx.pop =
      ({ ctx with
          instruction_stack := ctx.instruction_stack.dropLast
          top_level_instruction_index :=
            if ctx.instruction_stack.dropLast.isEmpty then
              satAddUsize ctx.top_level_instruction_index 1
            else ctx.top_level_instruction_index },
        if ic.instruction_accounts_lamport_sum ≠ s then .error .UnbalancedInstruction
        else .ok ()) := by
  have hempty : ctx.instruction_stack.isEmpty = false := by
    cases h : ctx.instruction_stack with
    | nil => exact absurd h hne
    | cons a l => rfl
  have hdet : ctx.popDetect = .ok (decide (ic.instruction_accounts_lamport_sum ≠ s)) := by
    unfold TransactionContext.popDetect
    rw [hcur]
    simp only
    rw [hprog]
    simp only
    rw [hsum]
  unfold TransactionContext.pop
  rw [hempty]
  simp only [Bool.false_eq_true, if_false]
  rw [hdet]
  by_cases hP : ic.instruction_accounts_lamport_sum ≠ s
  · simp [hP]
  · simp [hP]

/-- Witness for C1: a context with one balanced empty frame on the stack; the pop
empties the stack, bumps the top-level index to 1, and returns ok. -/
theorem pop_always_pops_and_reports_imbalance_witness :
    ctxC1.pop =
      ({ ctxC1 with
          instruction_stack := ctxC1.instruction_stack.dropLast
          top_level_instruction_index :=
            if ctxC1.instruction_stack.dropLast.isEmpty then
              satAddUsize ctxC1.top_level_instruction_index 1
            else ctxC1.top_level_instruction_index },
        if icEmptyFrame.instruction_accounts_lamport_sum ≠ 0 then
          .error .UnbalancedInstruction
        else .ok ()) :=
  pop_always_pops_and_reports_imbalance ctxC1 icEmptyFrame 0
    (by simp [ctxC1]) (by rfl) (by rfl) (by rfl)

/-- C9: for every `TransactionContext` with a non-empty instruction stack, `pop`
removes the top stack entry (and increments `top_level_instruction_index`,
saturating, when the stack becomes empty) on every path, including the ones that
return `AccountBorrowOutstanding` for a still-borrowed program account or a
non-borrowable account during the lamport recomputation: no hypothesis is made
about the outcome of the consistency computation. -/
theorem pop_pops_on_every_error_path (ctx : TransactionContext)
    (hne : ctx.instruction_stack ≠ []) :
    (ctx.pop).1.instruction_stack = ctx.instruction_stack.dropLast ∧
      (ctx.pop).1.top_level_instruction_index =
        (if ctx.instruction_stack.dropLast.isEmpty then
          satAddUsize ctx.top_level_instruction_index 1
        else ctx.top_level_instruction_index) := by
  have hempty : ctx.instruction_stack.isEmpty = false := by
    cases h : ctx.instruction_stack with
    | nil => exact absurd h hne
    | cons a l => rfl
  unfold TransactionContext.pop
  rw [hempty]
  simp only [Bool.false_eq_true, if_false]
  cases hd : ctx.popDetect with
  | error e => simp
  | ok b => cases b <;> simp

/-- Witness for C9: the current frame's program account is exclusively borrowed, so
`pop` returns `AccountBorrowOutstanding`, yet the stack is popped to empty and the
top-level instruction index still advances to 1. -/
theorem pop_pops_on_every_error_path_witness :
    ((ctxC9.pop).1.instruction_stack = ctxC9.instruction_stack.dropLast ∧
      (ctxC9.pop).1.top_level_instruction_index =
        (if ctxC9.instruction_stack.dropLast.isEmpty then
          satAddUsize ctxC9.top_level_instruction_index 1
        else ctxC9.top_level_instruction_index)) ∧
      (ctxC9.pop).2 = .error .AccountBorrowOutstanding :=
  ⟨pop_pops_on_every_error_path ctxC9 (by simp [ctxC9]), by rfl⟩

/-- C10: for every `TransactionContext` on which `push` fails with `CallDepth`
because the nesting level reached the stack capacity (the earlier steps all
succeeding), the instruction stack is unchanged but the instruction trace has
grown by one: the configured tail frame had its nesting level and lamport sum
written and stays in the trace, and a new empty pre-reserved tail frame was
appended before the `CallDepth` check ran. -/
theorem push_calldepth_still_grows_trace (ctx : TransactionContext)
    (caller : InstructionContext) (s : Nat)
    (hlast : ctx.instruction_trace.getLast? = some caller)
    (hsum : ctx.instruction_accounts_lamport_sum caller = .ok s)
    (hparent : ctx.pushParentCheck = .ok ())
    (htrace : ctx.instruction_trace.length - 1 < ctx.instruction_trace_capacity)
    (hdepth : ctx.instruction_stack.length ≥ ctx.instruction_stack_capacity) :
    ctx.push =
      ({ ctx with
          instruction_trace :=
            updateLast ctx.instruction_trace
              (fun ic =>
                { ic with
                  nesting_level := ctx.instruction_stack.length
                  instruction_accounts_lamport_sum := s }) ++ [default] },
        .error .CallDepth) ∧
      (ctx.push).1.instruction_trace.length = ctx.instruction_trace.length + 1 ∧
      (ctx.push).1.instruction_stack = ctx.instruction_stack := by
  have hmain :
      ctx.push =
        ({ ctx with
            instruction_trace :=
              updateLast ctx.instruction_trace
                (fun ic =>
                  { ic with
                    nesting_level := ctx.instruction_stack.length
                    instruction_accounts_lamport_sum := s }) ++ [default] },
          .error .CallDepth) := by
    unfold TransactionContext.push
    rw [hlast]
    simp only
    rw [hsum]
    simp only
    rw [hparent]
    simp only [TransactionContext.get_instruction_trace_length, length_updateLast]
    rw [if_neg (Nat.not_le.mpr htrace), if_pos hdepth]
  refine ⟨hmain, ?_, ?_⟩
  · rw [hmain]
    simp [length_updateLast]
  · rw [hmain]

/-- Witness for C10: a fresh context with stack capacity 0; `push` fails with
`CallDepth`, the stack stays empty, and the trace has grown from one to two frames. -/
theorem push_calldepth_still_grows_trace_witness :
    ctxC10.push =
      ({ ctxC10 with
          instruction_trace :=
            updateLast ctxC10.instruction_trace
              (fun ic =>
                { ic with
                  nesting_level := ctxC10.instruction_stack.length
                  instruction_accounts_lamport_sum := 0 }) ++ [default] },
        .error .CallDepth) ∧
      (ctxC10.push).1.instruction_trace.length = ctxC10.instruction_trace.length + 1 ∧
      (ctxC10.push).1.instruction_stack = ctxC10.instruction_stack :=
  push_calldepth_still_grows_trace ctxC10 default 0 (by rfl) (by rfl) (by rfl)
    (by norm_num [ctxC10]) (by norm_num [ctxC10])

/-- C3: whenever the account keys contain the instructions-sysvar key, the sysvar
step of `push` checks that the sysvar account's owner is the sysvar-registry id
(returning `InvalidAccountOwner` otherwise); with the correct owner it writes the
current `top_level_instruction_index` as a little-endian u16 into the sysvar
data's trailing slot, returning `AccountDataTooSmall` when the data is shorter
than two bytes. In particular, on the concrete context with accounts
`[(900, default), (instructionsSysvarId, {owner := 900, ..})]` and an empty
configured frame, `push` returns `InvalidAccountOwner`. -/
theorem push_sysvar_owner_check_and_write (ctx : TransactionContext) (idx : Nat)
    (slot : AccountSlot)
    (hfind : ctx.find_index_of_account instructionsSysvarId = some idx)
    (hslot : ctx.accounts.accounts[idx]? = some slot)
    (hborrow : slot.canBorrowExclusive = true) :
    (slot.account.owner ≠ sysvarRegistryId →
      ctx.pushSysvarStep = (ctx, .error .InvalidAccountOwner)) ∧
    (slot.account.owner = sysvarRegistryId →
      (slot.account.data.length < 2 →
        ctx.pushSysvarStep = (ctx, .error .AccountDataTooSmall)) ∧
      (2 ≤ slot.account.data.length →
        ctx.pushSysvarStep =
          ({ ctx with
              accounts :=
                { ctx.accounts with
                  accounts :=
                    listModify ctx.accounts.accounts idx
                      (fun s =>
                        { s with
                          account :=
                            { s.account with
                              data :=
                                slot.account.data.take (slot.account.data.length - 2) ++
                                  [ctx.top_level_instruction_index % 65536 % 256,
                                    ctx.top_level_instruction_index % 65536 / 256 % 256]
                              shared := false } }) } },
            .ok ()))) ∧
    (ctxC3.push).2 = .error .InvalidAccountOwner := by
  refine ⟨?_, ?_, by rfl⟩
  · intro howner
    unfold TransactionContext.pushSysvarStep
    rw [hfind]
    simp only
    rw [hslot]
    simp only [hborrow, if_true]
    rw [if_pos howner]
  · intro howner
    constructor
    · intro hshort
      unfold TransactionContext.pushSysvarStep
      rw [hfind]
      simp only
      rw [hslot]
      simp only [hborrow, if_true]
      rw [if_neg (by simp [howner]), store_current_index_checked, if_pos hshort]
    · intro hlong
      unfold TransactionContext.pushSysvarStep
      rw [hfind]
      simp only
      rw [hslot]
      simp only [hborrow, if_true]
      rw [if_neg (by simp [howner]), store_current_index_checked,
        if_neg (Nat.not_lt.mpr hlong)]

/-- Witness for C3: the concrete wrong-owner context; the sysvar step itself and the
full `push` both fail with `InvalidAccountOwner`. -/
theorem push_sysvar_owner_check_and_write_witness :
    ctxC3.pushSysvarStep = (ctxC3, .error .InvalidAccountOwner) ∧
      (ctxC3.push).2 = .error .InvalidAccountOwner :=
  ⟨(push_sysvar_owner_check_and_write ctxC3 1
        { account := { lamports := 5, data := [0, 0], owner := 900, executable := false,
                       rent_epoch := 0, shared := false }, borrow := .available }
        rfl rfl rfl).1 (by decide),
    (push_sysvar_owner_check_and_write ctxC3 1
        { account := { lamports := 5, data := [0, 0], owner := 900, executable := false,
                       rent_epoch := 0, shared := false }, borrow := .available }
        rfl rfl rfl).2.2⟩

theorem lamportSumAux_cons_dup (ctx : TransactionContext) (ic : InstructionContext)
    (i : Nat) (rest : List Nat) (acc : Nat) (a : InstructionAccount)
    (hget : ic.instruction_accounts[i]? = some a) (hfo : a.index_in_callee ≠ i) :
    lamportSumAux ctx ic (i :: rest) acc = lamportSumAux ctx ic rest acc := by
  simp only [lamportSumAux, InstructionContext.is_instruction_account_duplicate, hget,
    if_neg hfo]

theorem lamportSumAux_cons_first (ctx : TransactionContext) (ic : InstructionContext)
    (i : Nat) (rest : List Nat) (acc : Nat) (a : InstructionAccount) (slot : AccountSlot)
    (hget : ic.instruction_accounts[i]? = some a) (hfo : a.index_in_callee = i)
    (hslot : ctx.accounts.accounts[a.index_in_transaction]? = some slot)
    (hbor : slot.canBorrowShared = true)
    (hlt : slot.account.lamports + acc < 2 ^ 128) :
    lamportSumAux ctx ic (i :: rest) acc =
      lamportSumAux ctx ic rest (slot.account.lamports + acc) := by
  simp only [lamportSumAux, InstructionContext.is_instruction_account_duplicate,
    InstructionContext.get_index_of_instruction_account_in_transaction, hget, if_pos hfo,
    hslot, hbor, if_pos hlt, if_true]

theorem lamportSumAux_cons_first_borrowfail (ctx : TransactionContext) (ic : InstructionContext)
    (i : Nat) (rest : List Nat) (acc : Nat) (a : InstructionAccount) (slot : AccountSlot)
    (hget : ic.instruction_accounts[i]? = some a) (hfo : a.index_in_callee = i)
    (hslot : ctx.accounts.accounts[a.index_in_transaction]? = some slot)
    (hbor : slot.canBorrowShared = false) :
    lamportSumAux ctx ic (i :: rest) acc = .error .AccountBorrowOutstanding := by
  simp only [lamportSumAux, InstructionContext.is_instruction_account_duplicate,
    InstructionContext.get_index_of_instruction_account_in_transaction, hget, if_pos hfo,
    hslot, hbor, Bool.false_eq_true, if_false]

theorem lamportSumAux_cons_first_overflow (ctx : TransactionContext) (ic : InstructionContext)
    (i : Nat) (rest : List Nat) (acc : Nat) (a : InstructionAccount) (slot : AccountSlot)
    (hget : ic.instruction_accounts[i]? = some a) (hfo : a.index_in_callee = i)
    (hslot : ctx.accounts.accounts[a.index_in_transaction]? = some slot)
    (hbor : slot.canBorrowShared = true)
    (hge : ¬ slot.account.lamports + acc < 2 ^ 128) :
    lamportSumAux ctx ic (i :: rest) acc = .error .ArithmeticOverflow := by
  simp only [lamportSumAux, InstructionContext.is_instruction_account_duplicate,
    InstructionContext.get_index_of_instruction_account_in_transaction, hget, if_pos hfo,
    hslot, hbor, if_true, if_neg hge]

theorem lamportSumAux_ok (ctx : TransactionContext) (ic : InstructionContext) :
    ∀ (l : List Nat) (acc : Nat),
      (∀ i ∈ l, i < ic.instruction_accounts.length) →
      (∀ i ∈ l, isFirstOccurrence ic i = true →
        slotInRange ctx (txIndexOf ic i) = true ∧
          slotBorrowableShared ctx (txIndexOf ic i) = true) →
      acc + sumOverFirstOcc ctx ic l < 2 ^ 128 →
      lamportSumAux ctx ic l acc = .ok (acc + sumOverFirstOcc ctx ic l)
  | [], acc, _, _, _ => by simp [lamportSumAux, sumOverFirstOcc]
  | i :: rest, acc, h1, h2, hlt => by
    have hi : i < ic.instruction_accounts.length := h1 i (List.mem_cons_self i rest)
    obtain ⟨a, hget⟩ : ∃ a, ic.instruction_accounts[i]? = some a :=
      ⟨ic.instruction_accounts[i], List.getElem?_eq_getElem hi⟩
    by_cases hfo : a.index_in_callee = i
    · have hfo' : isFirstOccurrence ic i = true := by
        simp [isFirstOccurrence, hget, hfo]
      have htx : txIndexOf ic i = a.index_in_transaction := by
        simp [txIndexOf, hget]
      obtain ⟨hrange, hbor⟩ := h2 i (List.mem_cons_self i rest) hfo'
      rw [htx] at hrange hbor
      obtain ⟨slot, hslot⟩ : ∃ slot, ctx.accounts.accounts[a.index_in_transaction]? = some slot := by
        have hr : a.index_in_transaction < ctx.accounts.accounts.length := by
          simpa [slotInRange] using hrange
        exact ⟨_, List.getElem?_eq_getElem hr⟩
      have hbor' : slot.canBorrowShared = true := by
        simpa [slotBorrowableShared, hslot] using hbor
      have hlam : slotLamports ctx (txIndexOf ic i) = slot.account.lamports := by
        simp [slotLamports, htx, hslot]
      have hS : sumOverFirstOcc ctx ic (i :: rest) =
          slot.account.lamports + sumOverFirstOcc ctx ic rest := by
        simp [sumOverFirstOcc, hfo', hlam]
      have hlt2 : slot.account.lamports + acc < 2 ^ 128 := by rw [hS] at hlt; omega
      rw [lamportSumAux_cons_first ctx ic i rest acc a slot hget hfo hslot hbor' hlt2,
        lamportSumAux_ok ctx ic rest (slot.account.lamports + acc)
          (fun j hj => h1 j (List.mem_cons_of_mem i hj))
          (fun j hj => h2 j (List.mem_cons_of_mem i hj))
          (by rw [hS] at hlt; omega),
        hS]
      congr 1
      omega
    · have hfo' : isFirstOccurrence ic i = false := by
        simp [isFirstOccurrence, hget, hfo]
      have hS : sumOverFirstOcc ctx ic (i :: rest) = sumOverFirstOcc ctx ic rest := by
        simp [sumOverFirstOcc, hfo']
      rw [lamportSumAux_cons_dup ctx ic i rest acc a hget hfo,
        lamportSumAux_ok ctx ic rest acc
          (fun j hj => h1 j (List.mem_cons_of_mem i hj))
          (fun j hj => h2 j (List.mem_cons_of_mem i hj))
          (by rw [hS] at hlt; exact hlt),
        hS]

theorem lamportSumAux_borrowfail (ctx : TransactionContext) (ic : InstructionContext) :
    ∀ (l : List Nat) (acc : Nat),
      (∀ i ∈ l, i < ic.instruction_accounts.length) →
      (∀ i ∈ l, isFirstOccurrence ic i = true → slotInRange ctx (txIndexOf ic i) = true) →
      acc + sumOverFirstOcc ctx ic l < 2 ^ 128 →
      (∃ i ∈ l, isFirstOccurrence ic i = true ∧
        slotBorrowableShared ctx (txIndexOf ic i) = false) →
      lamportSumAux ctx ic l acc = .error .AccountBorrowOutstanding
  | [], _, _, _, _, hex => by simp at hex
  | i :: rest, acc, h1, h2, hlt, hex => by
    have hi : i < ic.instruction_accounts.length := h1 i (List.mem_cons_self i rest)
    obtain ⟨a, hget⟩ : ∃ a, ic.instruction_accounts[i]? = some a :=
      ⟨ic.instruction_accounts[i], List.getElem?_eq_getElem hi⟩
    by_cases hfo : a.index_in_callee = i
    · have hfo' : isFirstOccurrence ic i = true := by
        simp [isFirstOccurrence, hget, hfo]
      have htx : txIndexOf ic i = a.index_in_transaction := by
        simp [txIndexOf, hget]
      have hrange := h2 i (List.mem_cons_self i rest) hfo'
      rw [htx] at hrange
      obtain ⟨slot, hslot⟩ : ∃ slot, ctx.accounts.accounts[a.index_in_transaction]? = some slot := by
        have hr : a.index_in_transaction < ctx.accounts.accounts.length := by
          simpa [slotInRange] using hrange
        exact ⟨_, List.getElem?_eq_getElem hr⟩
      by_cases hbor : slot.canBorrowShared = true
      · have hlam : slotLamports ctx (txIndexOf ic i) = slot.account.lamports := by
          simp [slotLamports, htx, hslot]
        have hS : sumOverFirstOcc ctx ic (i :: rest) =
            slot.account.lamports + sumOverFirstOcc ctx ic rest := by
          simp [sumOverFirstOcc, hfo', hlam]
        have hlt2 : slot.account.lamports + acc < 2 ^ 128 := by rw [hS] at hlt; omega
        have hex' : ∃ j ∈ rest, isFirstOccurrence ic j = true ∧
            slotBorrowableShared ctx (txIndexOf ic j) = false := by
          obtain ⟨j, hj, hjf, hjb⟩ := hex
          rcases List.mem_cons.mp hj with hj0 | hj1
          · subst hj0
            rw [htx] at hjb
            have hcontra : slot.canBorrowShared = false := by
              simpa [slotBorrowableShared, hslot] using hjb
            exact absurd hbor (by simp [hcontra])
          · exact ⟨j, hj1, hjf, hjb⟩
        rw [lamportSumAux_cons_first ctx ic i rest acc a slot hget hfo hslot hbor hlt2]
        exact lamportSumAux_borrowfail ctx ic rest (slot.account.lamports + acc)
          (fun j hj => h1 j (List.mem_cons_of_mem i hj))
          (fun j hj => h2 j (List.mem_cons_of_mem i hj))
          (by rw [hS] at hlt; omega) hex'
      · exact lamportSumAux_cons_first_borrowfail ctx ic i rest acc a slot hget hfo hslot
          (by simpa using hbor)
    · have hfo' : isFirstOccurrence ic i = false := by
        simp [isFirstOccurrence, hget, hfo]
      have hS : sumOverFirstOcc ctx ic (i :: rest) = sumOverFirstOcc ctx ic rest := by
        simp [sumOverFirstOcc, hfo']
      have hex' : ∃ j ∈ rest, isFirstOccurrence ic j = true ∧
          slotBorrowableShared ctx (txIndexOf ic j) = false := by
        obtain ⟨j, hj, hjf, hjb⟩ := hex
        rcases List.mem_cons.mp hj with hj0 | hj1
        · subst hj0
          rw [hfo'] at hjf
          exact absurd hjf (by simp)
        · exact ⟨j, hj1, hjf, hjb⟩
      rw [lamportSumAux_cons_dup ctx ic i rest acc a hget hfo]
      exact lamportSumAux_borrowfail ctx ic rest acc
        (fun j hj => h1 j (List.mem_cons_of_mem i hj))
        (fun j hj => h2 j (List.mem_cons_of_mem i hj))
        (by rw [hS] at hlt; exact hlt) hex'

theorem lamportSumAux_overflow (ctx : TransactionContext) (ic : InstructionContext) :
    ∀ (l : List Nat) (acc : Nat),
      (∀ i ∈ l, i < ic.instruction_accounts.length) →
      (∀ i ∈ l, isFirstOccurrence ic i = true →
        slotInRange ctx (txIndexOf ic i) = true ∧
          slotBorrowableShared ctx (txIndexOf ic i) = true) →
      acc < 2 ^ 128 →
      2 ^ 128 ≤ acc + sumOverFirstOcc ctx ic l →
      lamportSumAux ctx ic l acc = .error .ArithmeticOverflow
  | [], acc, _, _, hacc, hof => by
    exact absurd hof (by simp [sumOverFirstOcc]; omega)
  | i :: rest, acc, h1, h2, hacc, hof => by
    have hi : i < ic.instruction_accounts.length := h1 i (List.mem_cons_self i rest)
    obtain ⟨a, hget⟩ : ∃ a, ic.instruction_accounts[i]? = some a :=
      ⟨ic.instruction_accounts[i], List.getElem?_eq_getElem hi⟩
    by_cases hfo : a.index_in_callee = i
    · have hfo' : isFirstOccurrence ic i = true := by
        simp [isFirstOccurrence, hget, hfo]
      have htx : txIndexOf ic i = a.index_in_transaction := by
        simp [txIndexOf, hget]
      obtain ⟨hrange, hbor⟩ := h2 i (List.mem_cons_self i rest) hfo'
      rw [htx] at hrange hbor
      obtain ⟨slot, hslot⟩ : ∃ slot, ctx.accounts.accounts[a.index_in_transaction]? = some slot := by
        have hr : a.index_in_transaction < ctx.accounts.accounts.length := by
          simpa [slotInRange] using hrange
        exact ⟨_, List.getElem?_eq_getElem hr⟩
      have hbor' : slot.canBorrowShared = true := by
        simpa [slotBorrowableShared, hslot] using hbor
      have hlam : slotLamports ctx (txIndexOf ic i) = slot.account.lamports := by
        simp [slotLamports, htx, hslot]
      have hS : sumOverFirstOcc ctx ic (i :: rest) =
          slot.account.lamports + sumOverFirstOcc ctx ic rest := by
        simp [sumOverFirstOcc, hfo', hlam]
      by_cases hlt2 : slot.account.lamports + acc < 2 ^ 128
      · rw [lamportSumAux_cons_first ctx ic i rest acc a slot hget hfo hslot hbor' hlt2]
        exact lamportSumAux_overflow ctx ic rest (slot.account.lamports + acc)
          (fun j hj => h1 j (List.mem_cons_of_mem i hj))
          (fun j hj => h2 j (List.mem_cons_of_mem i hj))
          hlt2 (by rw [hS] at hof; omega)
      · exact lamportSumAux_cons_first_overflow ctx ic i rest acc a slot hget hfo hslot hbor' hlt2
    · have hfo' : isFirstOccurrence ic i = false := by
        simp [isFirstOccurrence, hget, hfo]
      have hS : sumOverFirstOcc ctx ic (i :: rest) = sumOverFirstOcc ctx ic rest := by
        simp [sumOverFirstOcc, hfo']
      rw [lamportSumAux_cons_dup ctx ic i rest acc a hget hfo]
      exact lamportSumAux_overflow ctx ic rest acc
        (fun j hj => h1 j (List.mem_cons_of_mem i hj))
        (fun j hj => h2 j (List.mem_cons_of_mem i hj))
        hacc (by rw [hS] at hof; exact hof)

/-- C2: for every frame with fewer than 65536 instruction accounts, the lamport
sum computed during push/pop equals the u128 sum of the lamports of exactly the
instruction accounts whose `is_instruction_account_duplicate` query returns
`None` (first occurrences only; later duplicates contribute nothing); if any
summed account's slot cannot be borrowed shared the computation fails with
`AccountBorrowOutstanding`, and if the u128 addition overflows it fails with
`ArithmeticOverflow`. -/
theorem lamport_sum_counts_first_occurrences (ctx : TransactionContext)
    (ic : InstructionContext) (hlen : ic.instruction_accounts.length < 65536) :
    ((∀ i, i < ic.instruction_accounts.length → isFirstOccurrence ic i = true →
        slotInRange ctx (txIndexOf ic i) = true ∧
          slotBorrowableShared ctx (txIndexOf ic i) = true) →
      totalFirstOccLamports ctx ic < 2 ^ 128 →
      ctx.instruction_accounts_lamport_sum ic = .ok (totalFirstOccLamports ctx ic)) ∧
    ((∀ i, i < ic.instruction_accounts.length → isFirstOccurrence ic i = true →
        slotInRange ctx (txIndexOf ic i) = true) →
      totalFirstOccLamports ctx ic < 2 ^ 128 →
      (∃ i, i < ic.instruction_accounts.length ∧ isFirstOccurrence ic i = true ∧
        slotBorrowableShared ctx (txIndexOf ic i) = false) →
      ctx.instruction_accounts_lamport_sum ic = .error .AccountBorrowOutstanding) ∧
    ((∀ i, i < ic.instruction_accounts.length → isFirstOccurrence ic i = true →
        slotInRange ctx (txIndexOf ic i) = true ∧
          slotBorrowableShared ctx (txIndexOf ic i) = true) →
      2 ^ 128 ≤ totalFirstOccLamports ctx ic →
      ctx.instruction_accounts_lamport_sum ic = .error .ArithmeticOverflow) := by
  have hrange_eq : ic.get_number_of_instruction_accounts = ic.instruction_accounts.length := by
    simp [InstructionContext.get_number_of_instruction_accounts, Nat.mod_eq_of_lt hlen]
  refine ⟨?_, ?_, ?_⟩
  · intro hall hlt
    unfold TransactionContext.instruction_accounts_lamport_sum
    rw [hrange_eq]
    have h := lamportSumAux_ok ctx ic (List.range ic.instruction_accounts.length) 0
      (fun i hi => List.mem_range.mp hi)
      (fun i hi => hall i (List.mem_range.mp hi))
      (by simpa [totalFirstOccLamports] using hlt)
    simpa [totalFirstOccLamports] using h
  · intro hall hlt hex
    unfold TransactionContext.instruction_accounts_lamport_sum
    rw [hrange_eq]
    obtain ⟨i, hi, hf, hb⟩ := hex
    exact lamportSumAux_borrowfail ctx ic (List.range ic.instruction_accounts.length) 0
      (fun j hj => List.mem_range.mp hj)
      (fun j hj => hall j (List.mem_range.mp hj))
      (by simpa [totalFirstOccLamports] using hlt)
      ⟨i, List.mem_range.mpr hi, hf, hb⟩
  · intro hall hof
    unfold TransactionContext.instruction_accounts_lamport_sum
    rw [hrange_eq]
    exact lamportSumAux_overflow ctx ic (List.range ic.instruction_accounts.length) 0
      (fun j hj => List.mem_range.mp hj)
      (fun j hj => hall j (List.mem_range.mp hj))
      (by norm_num)
      (by simpa [totalFirstOccLamports] using hof)

/-- Witness for C2 (spec scenario 6): accounts with 5 and 7 lamports where the frame
lists account 0 twice; the sum counts it once, giving 12. -/
theorem lamport_sum_counts_first_occurrences_witness :
    ctxC2.instruction_accounts_lamport_sum icC2 = .ok (totalFirstOccLamports ctxC2 icC2) ∧
      totalFirstOccLamports ctxC2 icC2 = 12 :=
  ⟨(lamport_sum_counts_first_occurrences ctxC2 icC2 (by norm_num [icC2])).1
      (by decide)
      (by rw [show totalFirstOccLamports ctxC2 icC2 = 12 from rfl]; norm_num),
    rfl⟩

/-- C4: `can_data_be_resized` returns `InvalidRealloc` when the new length exceeds
10 MiB, otherwise `MaxAccountsDataAllocationsExceeded` when the recorded resize
delta plus the (saturating i64) length difference exceeds 2 x 10 MiB, and ok
otherwise; consequently `BorrowedAccount.set_data_length` at 10 MiB + 1 on an
account owned by the current program returns `InvalidRealloc` and leaves the
state (in particular the data length) unchanged. -/
theorem can_data_be_resized_limits :
    (∀ (ta : TransactionAccounts) (old_len new_len : Nat),
      ta.can_data_be_resized old_len new_len =
        if new_len > 10 * 1024 * 1024 then .error .InvalidRealloc
        else if satAddI64 ta.resize_delta (satSubI64 (usizeToI64 new_len) (usizeToI64 old_len)) >
            2 * (10 * 1024 * 1024) then .error .MaxAccountsDataAllocationsExceeded
        else .ok ()) ∧
    (∀ ba : BorrowedAccount, ba.is_owned_by_current_program = true →
      ba.set_data_length (10 * 1024 * 1024 + 1) = (ba, .error .InvalidRealloc)) := by
  constructor
  · intro ta old_len new_len
    unfold TransactionAccounts.can_data_be_resized
    norm_num [MAX_PERMITTED_DATA_LENGTH, MAX_PERMITTED_ACCOUNTS_DATA_ALLOCATIONS_PER_TRANSACTION]
  · intro ba howned
    have hgate : ba.can_data_be_resized (10 * 1024 * 1024 + 1) = .error .InvalidRealloc := by
      unfold BorrowedAccount.can_data_be_resized
      rw [if_neg (by simp [howned])]
      unfold TransactionAccounts.can_data_be_resized
      rw [if_pos (by norm_num [MAX_PERMITTED_DATA_LENGTH])]
    unfold BorrowedAccount.set_data_length
    rw [hgate]

/-- Witness for C4: the concrete owned writable account; resizing to 10 MiB + 1
fails with `InvalidRealloc` and the state is untouched. -/
theorem can_data_be_resized_limits_witness :
    baOwned.set_data_length (10 * 1024 * 1024 + 1) = (baOwned, .error .InvalidRealloc) :=
  can_data_be_resized_limits.2 baOwned rfl

/-- C6: `set_lamports(v)` applies its gates in order: if `v` is below the current
lamports and the account is not owned by the current program it fails with
`ExternalAccountLamportSpend`; else if not writable, `ReadonlyLamportChange`;
else if executable (internal), `ExecutableLamportChange`; else if `v` equals the
current lamports it returns ok without touching the slot; else it touches the
slot and sets the lamports to `v` (stated under the always-true-in-practice
side condition that the touch flag index is in range). -/
theorem set_lamports_gate_order (ba : BorrowedAccount) (v : Nat)
    (htouch : ba.touchOk = true) :
    ba.set_lamports v =
      if ba.is_owned_by_current_program = false ∧ v < ba.get_lamports then
        (ba, .error .ExternalAccountLamportSpend)
      else if ba.is_writable = false then (ba, .error .ReadonlyLamportChange)
      else if ba.is_executable_internal = true then (ba, .error .ExecutableLamportChange)
      else if ba.get_lamports = v then (ba, .ok ())
      else (ba.touchState.mapAccount (fun a => { a with lamports := v }), .ok ()) := by
  unfold BorrowedAccount.set_lamports
  simp only [Bool.not_eq_true', htouch, if_true, eq_self_iff_true]

/-- Witness for C6: setting 50 lamports on the owned writable 100-lamport account. -/
theorem set_lamports_gate_order_witness :
    baOwned.set_lamports 50 =
      if baOwned.is_owned_by_current_program = false ∧ 50 < baOwned.get_lamports then
        (baOwned, .error .ExternalAccountLamportSpend)
      else if baOwned.is_writable = false then (baOwned, .error .ReadonlyLamportChange)
      else if baOwned.is_executable_internal = true then
        (baOwned, .error .ExecutableLamportChange)
      else if baOwned.get_lamports = 50 then (baOwned, .ok ())
      else (baOwned.touchState.mapAccount (fun a => { a with lamports := 50 }), .ok ()) :=
  set_lamports_gate_order baOwned 50 rfl

/-- Counterexample to C7 as stated: under the default
`remove_accounts_executable_flag_checks = true`, `is_executable_internal` is
always false, so for a rent-exempt, owned, writable account whose executable
flag is set, `set_executable false` succeeds — it does not fail with
`ExecutableModified`. -/
theorem set_executable_clear_succeeds_counterexample :
    baC7.transaction_context.rent_is_exempt baC7.get_lamports baC7.get_data.length = true ∧
      baC7.is_owned_by_current_program = true ∧
      baC7.is_writable = true ∧
      baC7.slot.account.executable = true ∧
      (baC7.set_executable false).2 = .ok () :=
  ⟨rfl, rfl, rfl, rfl, rfl⟩

/-- C7 amended: when the executable-flag checks are kept
(`remove_accounts_executable_flag_checks = false`, the legacy behavior), a
rent-exempt account owned by the current program and writable whose executable
flag is currently set cannot have it cleared: `set_executable false` fails with
`ExecutableModified` and leaves the state unchanged. -/
theorem set_executable_cannot_clear_legacy (ba : BorrowedAccount)
    (hflag : ba.transaction_context.remove_accounts_executable_flag_checks = false)
    (hrent : ba.transaction_context.rent_is_exempt ba.get_lamports ba.get_data.length = true)
    (howned : ba.is_owned_by_current_program = true)
    (hwrit : ba.is_writable = true)
    (hexec : ba.slot.account.executable = true) :
    ba.set_executable false = (ba, .error .ExecutableModified) := by
  unfold BorrowedAccount.set_executable
  rw [if_neg (by simp [hrent]), if_neg (by simp [howned]), if_neg (by simp [hwrit]),
    if_pos (by simp [BorrowedAccount.is_executable_internal, hflag, hexec])]

/-- Witness for the amended C7: the same executable account with the legacy flag. -/
theorem set_executable_cannot_clear_legacy_witness :
    baC7legacy.set_executable false = (baC7legacy, .error .ExecutableModified) :=
  set_executable_cannot_clear_legacy baC7legacy rfl rfl rfl rfl rfl

/-- Counterexample to C8 as stated: the empty check does not precede the gates —
`can_data_be_resized` runs first, so `extend_from_slice` with an empty slice on a
non-writable account fails with `ReadonlyDataModified` instead of returning ok. -/
theorem extend_from_slice_empty_not_unconditional_counterexample :
    baC8.is_writable = false ∧
      baC8.extend_from_slice [] = (baC8, .error .ReadonlyDataModified) :=
  ⟨rfl, rfl⟩

/-- C8 amended: `extend_from_slice` with an empty slice never modifies the state
(no touch, no resize-delta change, no data change); it returns ok exactly when
the `can_data_be_resized` gate passes at the unchanged length and that gate's
error otherwise. -/
theorem extend_from_slice_empty_after_gates (ba : BorrowedAccount)
    (hlen : ba.get_data.length < 2 ^ 64) :
    ba.extend_from_slice [] = (ba, ba.can_data_be_resized ba.get_data.length) := by
  have hsat : satAddUsize ba.get_data.length (List.length ([] : List Nat)) =
      ba.get_data.length := by
    simp [satAddUsize]
    omega
  unfold BorrowedAccount.extend_from_slice
  simp only [hsat]
  cases hgate : ba.can_data_be_resized ba.get_data.length with
  | error e => rfl
  | ok u => rfl

/-- Witness for the amended C8: on the owned writable account the gate passes,
so the empty extend is a pure no-op returning ok. -/
theorem extend_from_slice_empty_after_gates_witness :
    baOwned.extend_from_slice [] = (baOwned, baOwned.can_data_be_resized baOwned.get_data.length) :=
  extend_from_slice_empty_after_gates baOwned (by decide)

theorem length_listModify {α : Type} (l : List α) (i : Nat) (f : α → α) :
    (listModify l i f).length = l.length := by
  induction l generalizing i with
  | nil => rfl
  | cons x xs ih =>
    cases i with
    | zero => rfl
    | succ n => simpa [listModify] using ih n

theorem forall_mem_listModify {α : Type} (l : List α) (i : Nat) (f : α → α)
    (P : α → Prop) (h1 : ∀ x ∈ l, P x) (h2 : ∀ x ∈ l, P (f x)) :
    ∀ y ∈ listModify l i f, P y := by
  induction l generalizing i with
  | nil => intro y hy; simp [listModify] at hy
  | cons x xs ih =>
    cases i with
    | zero =>
      intro y hy
      rcases List.mem_cons.mp hy with h | h
      · exact h ▸ h2 x (List.mem_cons_self x xs)
      · exact h1 y (List.mem_cons_of_mem x h)
    | succ n =>
      intro y hy
      rcases List.mem_cons.mp hy with h | h
      · exact h ▸ h1 x (List.mem_cons_self x xs)
      · exact ih n (fun z hz => h1 z (List.mem_cons_of_mem x hz))
          (fun z hz => h2 z (List.mem_cons_of_mem x hz)) y h

theorem lenDiffSum_listModify (f : AccountSlot → AccountSlot) :
    ∀ (ss : List AccountSlot) (ls : List Nat) (i : Nat) (s : AccountSlot),
      ss[i]? = some s → ss.length = ls.length →
      lenDiffSum (listModify ss i f) ls =
        lenDiffSum ss ls +
          (((f s).account.data.length : Int) - (s.account.data.length : Int))
  | [], ls, i, s, hget, _ => by simp at hget
  | x :: xs, [], i, s, _, hlen => by simp at hlen
  | x :: xs, l :: ls, 0, s, hget, hlen => by
    have hx : x = s := by simpa using hget
    subst hx
    simp [listModify, lenDiffSum]
    ring
  | x :: xs, l :: ls, n + 1, s, hget, hlen => by
    have hget' : xs[n]? = some s := by simpa using hget
    have hlen' : xs.length = ls.length := by simpa using hlen
    simp only [listModify, lenDiffSum]
    rw [lenDiffSum_listModify f xs ls n s hget' hlen']
    ring

theorem lenDiffSum_bound (M : Int) (hM : 0 ≤ M) :
    ∀ (ss : List AccountSlot) (ls : List Nat),
      ss.length = ls.length →
      (∀ s ∈ ss, (s.account.data.length : Int) ≤ M) →
      (∀ l ∈ ls, (l : Int) ≤ M) →
      -((ls.length : Int) * M) ≤ lenDiffSum ss ls ∧
        lenDiffSum ss ls ≤ (ls.length : Int) * M
  | [], [], _, _, _ => by simp [lenDiffSum]
  | [], l :: ls, hlen, _, _ => by simp at hlen
  | s :: ss, [], hlen, _, _ => by simp at hlen
  | s :: ss, l :: ls, hlen, h1, h2 => by
    have hrec := lenDiffSum_bound M hM ss ls (by simpa using hlen)
      (fun x hx => h1 x (List.mem_cons_of_mem s hx))
      (fun x hx => h2 x (List.mem_cons_of_mem l hx))
    have hs : (s.account.data.length : Int) ≤ M := h1 s (List.mem_cons_self s ss)
    have hl : (l : Int) ≤ M := h2 l (List.mem_cons_self l ls)
    have hs0 : (0 : Int) ≤ (s.account.data.length : Int) := Int.natCast_nonneg _
    have hl0 : (0 : Int) ≤ (l : Int) := Int.natCast_nonneg _
    constructor
    · simp only [lenDiffSum, List.length_cons]
      push_cast
      nlinarith [hrec.1]
    · simp only [lenDiffSum, List.length_cons]
      push_cast
      nlinarith [hrec.2]

theorem accountResize_length (a : AccountSharedData) (n : Nat) :
    (accountResize a n).data.length = n := by
  unfold accountResize
  by_cases h : n ≤ a.data.length
  · simp only [if_pos h, List.length_take]
    omega
  · simp only [if_neg h, List.length_append, List.length_replicate]
    omega

theorem satAddI64_exact (a b : Int) (h1 : I64_MIN ≤ a + b) (h2 : a + b ≤ I64_MAX) :
    satAddI64 a b = a + b := by
  unfold satAddI64
  rw [if_neg (by omega), if_neg (by omega)]

theorem satSubI64_exact (a b : Int) (h1 : I64_MIN ≤ a - b) (h2 : a - b ≤ I64_MAX) :
    satSubI64 a b = a - b := by
  unfold satSubI64
  rw [if_neg (by omega), if_neg (by omega)]

theorem usizeToI64_small (n : Nat) (h : n < 2 ^ 63) : usizeToI64 n = (n : Int) := by
  unfold usizeToI64
  have hmod : n % 2 ^ 64 = n := Nat.mod_eq_of_lt (by omega)
  rw [hmod, if_pos h]

theorem ba_resize_ok_le_max (ba : BorrowedAccount) (n : Nat)
    (h : ba.can_data_be_resized n = .ok ()) : n ≤ MAX_PERMITTED_DATA_LENGTH := by
  unfold BorrowedAccount.can_data_be_resized at h
  split at h
  · exact absurd h (by simp)
  · cases hp : ba.transaction_context.accounts.can_data_be_resized ba.get_data.length n with
    | error e => rw [hp] at h; exact absurd h (by simp)
    | ok u =>
      unfold TransactionAccounts.can_data_be_resized at hp
      split at hp
      · exact absurd hp (by simp)
      · omega

theorem set_data_length_invariant (inits : List Nat) (ba : BorrowedAccount) (n : Nat)
    (hn : inits.length ≤ 2 ^ 32)
    (hinv : deltaInvariant inits ba.transaction_context)
    (hok : exceptIsOk (ba.set_data_length n).2 = true) :
    deltaInvariant inits (ba.set_data_length n).1.transaction_context := by
  obtain ⟨hdelta, hcount, hflags, hbound, hinitb⟩ := hinv
  simp only [BorrowedAccount.set_data_length] at hok ⊢
  cases hgate : ba.can_data_be_resized n with
  | error e => rw [hgate] at hok; simp [exceptIsOk] at hok
  | ok u =>
    cases u
    rw [hgate] at hok
    simp only at hok ⊢
    by_cases hlen : ba.get_data.length = n
    · rw [if_pos hlen]
      exact ⟨hdelta, hcount, hflags, hbound, hinitb⟩
    · rw [if_neg hlen] at hok ⊢
      by_cases htch : ba.touchOk = true
      · rw [if_pos htch]
        -- the success path: touch, update delta, resize
        have htouch : ba.index_in_transaction <
            ba.transaction_context.accounts.touched_flags.length := by
          simpa [BorrowedAccount.touchOk] using htch
        have hidx : ba.index_in_transaction <
            ba.transaction_context.accounts.accounts.length := by omega
        obtain ⟨slot, hslot⟩ :
            ∃ s, ba.transaction_context.accounts.accounts[ba.index_in_transaction]? = some s :=
          ⟨_, List.getElem?_eq_getElem hidx⟩
        have hslotmem : slot ∈ ba.transaction_context.accounts.accounts :=
          List.getElem?_mem hslot
        have hold : ba.get_data.length = slot.account.data.length := by
          simp [BorrowedAccount.get_data, BorrowedAccount.slot, hslot]
        have hnle : n ≤ MAX_PERMITTED_DATA_LENGTH := ba_resize_ok_le_max ba n hgate
        have holdle : slot.account.data.length ≤ MAX_PERMITTED_DATA_LENGTH :=
          hbound slot hslotmem
        have hMcast : ∀ s ∈ ba.transaction_context.accounts.accounts,
            (s.account.data.length : Int) ≤ (MAX_PERMITTED_DATA_LENGTH : Int) := by
          intro s hs; exact_mod_cast hbound s hs
        have hMcast2 : ∀ l ∈ inits, (l : Int) ≤ (MAX_PERMITTED_DATA_LENGTH : Int) := by
          intro l hl; exact_mod_cast hinitb l hl
        have hdb := lenDiffSum_bound (MAX_PERMITTED_DATA_LENGTH : Int)
          (by norm_num [MAX_PERMITTED_DATA_LENGTH])
          ba.transaction_context.accounts.accounts inits hcount hMcast hMcast2
        have hdeltabound :
            -((2 : Int) ^ 32 * 10485760) ≤ ba.transaction_context.accounts.resize_delta ∧
              ba.transaction_context.accounts.resize_delta ≤ (2 : Int) ^ 32 * 10485760 := by
          rw [hdelta]
          have hM : (MAX_PERMITTED_DATA_LENGTH : Int) = 10485760 := by
            norm_num [MAX_PERMITTED_DATA_LENGTH]
          rw [hM] at hdb
          have hc : (inits.length : Int) ≤ (2 : Int) ^ 32 := by exact_mod_cast hn
          constructor
          · nlinarith [hdb.1]
          · nlinarith [hdb.2]
        have hsub : satSubI64 (usizeToI64 n) (usizeToI64 ba.get_data.length) =
            (n : Int) - (ba.get_data.length : Int) := by
          rw [usizeToI64_small n (by norm_num [MAX_PERMITTED_DATA_LENGTH] at hnle; omega),
            usizeToI64_small ba.get_data.length
              (by rw [hold]; norm_num [MAX_PERMITTED_DATA_LENGTH] at holdle; omega)]
          refine satSubI64_exact _ _ ?_ ?_
          · norm_num [I64_MIN, MAX_PERMITTED_DATA_LENGTH] at hnle holdle ⊢
            rw [hold]; omega
          · norm_num [I64_MAX, MAX_PERMITTED_DATA_LENGTH] at hnle holdle ⊢
            rw [hold]; omega
        have hadd : satAddI64 ba.transaction_context.accounts.resize_delta
              ((n : Int) - (ba.get_data.length : Int)) =
            ba.transaction_context.accounts.resize_delta +
              ((n : Int) - (ba.get_data.length : Int)) := by
          refine satAddI64_exact _ _ ?_ ?_
          · norm_num [I64_MIN, MAX_PERMITTED_DATA_LENGTH] at hnle holdle ⊢
            rw [hold]
            have := hdeltabound.1
            norm_num at this
            omega
          · norm_num [I64_MAX, MAX_PERMITTED_DATA_LENGTH] at hnle holdle ⊢
            rw [hold]
            have := hdeltabound.2
            norm_num at this
            omega
        -- normalize the resulting state to explicit record updates
        simp only [BorrowedAccount.touchState, BorrowedAccount.updateResizeDeltaState,
          BorrowedAccount.mapAccount, TransactionAccounts.update_accounts_resize_delta,
          BorrowedAccount.get_data, BorrowedAccount.slot]
        refine ⟨?_, ?_, ?_, ?_, hinitb⟩
        · -- resize-delta identity
          show satAddI64 ba.transaction_context.accounts.resize_delta
              (satSubI64 (usizeToI64 n)
                (usizeToI64 (((ba.transaction_context.accounts.accounts[ba.index_in_transaction]?).getD
                  default).account.data.length))) =
            lenDiffSum (listModify ba.transaction_context.accounts.accounts
              ba.index_in_transaction (fun s => { s with account := accountResize s.account n }))
              inits
          rw [lenDiffSum_listModify _ _ _ _ _ hslot hcount, hslot]
          simp only [Option.getD_some, accountResize_length]
          rw [← hold, hsub, hadd, hdelta]
        · simpa [length_listModify] using hcount
        · simpa [length_listModify] using hflags
        · exact forall_mem_listModify _ _ _ _ hbound
            (fun x _ => by simpa [accountResize_length] using hnle)
      · rw [if_neg htch] at hok; simp [exceptIsOk] at hok

theorem lenDiffSum_new (txs : List (Nat × AccountSharedData)) :
    lenDiffSum (txs.map (fun p => { account := p.2, borrow := .available }))
      (txs.map (fun p => p.2.data.length)) = 0 := by
  induction txs with
  | nil => rfl
  | cons x xs ih => simp [lenDiffSum, ih]

theorem applyResizeOps_invariant (inits : List Nat) (hn : inits.length ≤ 2 ^ 32) :
    ∀ (ops : List ResizeOp) (ctx : TransactionContext),
      deltaInvariant inits ctx → (applyResizeOps ctx ops).2 = true →
      deltaInvariant inits (applyResizeOps ctx ops).1
  | [], ctx, hinv, _ => hinv
  | op :: rest, ctx, hinv, hok => by
    simp only [applyResizeOps] at hok ⊢
    obtain ⟨h1, h2⟩ := Bool.and_eq_true_iff.mp hok
    exact applyResizeOps_invariant inits hn rest (applyResizeOp ctx op).1
      (set_data_length_invariant inits _ op.new_length hn hinv h1) h2

/-- C5: starting from a freshly constructed `TransactionContext` and running any
sequence of `BorrowedAccount.set_data_length` operations that all succeed, the
pool's `resize_delta` equals the sum over all account slots of (current data
length − initial data length). Stated under the physically guaranteed bounds
that the initial account set has at most `2^32` entries, each within the 10 MiB
per-account maximum (so the saturating i64 arithmetic is exact). -/
theorem resize_delta_identity (txs : List (Nat × AccountSharedData))
    (rent : Nat → Nat → Bool) (stack_capacity trace_capacity : Nat) (ops : List ResizeOp)
    (hn : txs.length ≤ 2 ^ 32)
    (hb : ∀ p ∈ txs, p.2.data.length ≤ MAX_PERMITTED_DATA_LENGTH)
    (hok : (applyResizeOps (TransactionContext.new txs rent stack_capacity trace_capacity)
      ops).2 = true) :
    (applyResizeOps (TransactionContext.new txs rent stack_capacity trace_capacity)
        ops).1.accounts.resize_delta =
      lenDiffSum
        (applyResizeOps (TransactionContext.new txs rent stack_capacity trace_capacity)
          ops).1.accounts.accounts
        (txs.map (fun p => p.2.data.length)) := by
  have hinv0 : deltaInvariant (txs.map (fun p => p.2.data.length))
      (TransactionContext.new txs rent stack_capacity trace_capacity) := by
    refine ⟨?_, ?_, ?_, ?_, ?_⟩
    · simpa [TransactionContext.new] using (lenDiffSum_new txs).symm
    · simp [TransactionContext.new]
    · simp [TransactionContext.new]
    · intro s hs
      simp only [TransactionContext.new, List.mem_map] at hs
      obtain ⟨p, hp, rfl⟩ := hs
      exact hb p hp
    · intro l hl
      simp only [List.mem_map] at hl
      obtain ⟨p, hp, rfl⟩ := hl
      exact hb p hp
  exact (applyResizeOps_invariant (txs.map (fun p => p.2.data.length))
      (by simpa using hn) ops _ hinv0 hok).1

/-- Witness for C5: two accounts, one successful resize of the owned writable
account from 0 to 5 bytes; the recorded delta is 5 and equals the length-difference
sum. -/
theorem resize_delta_identity_witness :
    ((applyResizeOps (TransactionContext.new txsC5 (fun _ _ => true) 2 2)
        opsC5).1.accounts.resize_delta =
      lenDiffSum
        (applyResizeOps (TransactionContext.new txsC5 (fun _ _ => true) 2 2)
          opsC5).1.accounts.accounts
        (txsC5.map (fun p => p.2.data.length))) ∧
      (applyResizeOps (TransactionContext.new txsC5 (fun _ _ => true) 2 2)
        opsC5).1.accounts.resize_delta = 5 :=
  ⟨resize_delta_identity txsC5 (fun _ _ => true) 2 2 opsC5 (by norm_num [txsC5])
      (by decide) (by rfl),
    by rfl⟩
